import Mathlib

/-!
LamoEditor — shallow embedding of the timeline core (src/main.py).

This file embeds the timeline data model, the history (undo/redo) manager,
the selection/range controller, the project codec and the export pipeline of
`src/main.py` as executable Lean definitions, and proves / refutes the frozen
claims about them.

Numbers (`float` in Python) are modelled as `ℚ`: every concrete value used by
the claims is exactly representable, and `json.dumps`/`json.loads` round-trips
Python floats exactly, so rational arithmetic is a faithful model of every
equality the claims state.
-/

set_option maxHeartbeats 1000000

namespace LamoEditor

/-- One entry of a segment's `effects` list.  In the source these are Python
dicts `{'type': str}` or `{'type': str, 'value': number}` built by
`apply_effects`; `value : Option ℚ` models the optional `'value'` key. -/
structure EffectEntry where
  type : String
  value : Option ℚ
deriving DecidableEq, Repr

/-- Dataclass `VideoSegment` (src/main.py lines 31-51). -/
structure VideoSegment where
  path : String
  start_time : ℚ
  end_time : ℚ
  duration : ℚ
  effects : List EffectEntry
  volume : ℚ
  speed : ℚ
deriving DecidableEq, Repr

/-- The Python value stored in `TextOverlay.position`.  `add_text_overlay`
stores either the string `'center'` or a 2-tuple of strings; after a JSON
round-trip (undo/redo snapshots, project load) a tuple comes back as a Python
*list*.  Python `==` distinguishes a tuple from a list, so the embedding keeps
them as distinct constructors. -/
inductive PosVal where
  | str (s : String)
  | tup (a b : String)
  | lst (a b : String)
deriving DecidableEq, Repr

/-- Dataclass `TextOverlay` (src/main.py lines 54-74).  `font_size` is a
Python number (int on creation); Python numeric equality identifies `50` and
`50.0`, so `ℚ` is the faithful carrier. -/
structure TextOverlay where
  text : String
  start_time : ℚ
  duration : ℚ
  position : PosVal
  font_size : ℚ
  color : String
  font : String
deriving DecidableEq, Repr

/-! Section: JSON values.

`save_state`, `undo`, `redo`, `save_project` and `load_project` all serialize
through `json.dumps`/`json.loads`.  A snapshot string is modelled by the JSON
value it denotes (`json.dumps` is injective on these values and
`loads ∘ dumps = id` on JSON values). -/

/-- JSON values produced and consumed by the program.  One numeric
constructor suffices: Python ints and floats compare equal when numerically
equal and both round-trip exactly. -/
inductive Json where
  | str (s : String)
  | num (q : ℚ)
  | arr (xs : List Json)
  | obj (kvs : List (String × Json))
  | null

/-- Python `dict[k]` / `dict.get(k)` on a decoded JSON object. -/
def jGet (kvs : List (String × Json)) (k : String) : Option Json :=
  (kvs.find? (fun kv => kv.1 == k)).map (fun kv => kv.2)

/-- Lookup `dict.get(k)` with a numeric value, defaulting (dataclass keyword
defaults) when the key is absent. -/
def jGetNumD (kvs : List (String × Json)) (k : String) (dflt : ℚ) : Option ℚ :=
  match jGet kvs k with
  | none => some dflt
  | some (Json.num q) => some q
  | some _ => none

/-- Encoding of one effect dict by `json.dumps` (the dicts built at
src/main.py lines 916-940). -/
def effToJson (e : EffectEntry) : Json :=
  match e.value with
  | some v => Json.obj [("type", Json.str e.type), ("value", Json.num v)]
  | none => Json.obj [("type", Json.str e.type)]

/-- Decoding of one effect dict from parsed JSON.  `VideoSegment(**d)` stores
the decoded dicts unchecked; this program only ever writes dicts of the shape
`effToJson` produces, and those are the values the claims quantify over. -/
def effFromJson : Json → Option EffectEntry
  | Json.obj kvs =>
      match jGet kvs "type", jGet kvs "value" with
      | some (Json.str t), some (Json.num v) => some ⟨t, some v⟩
      | some (Json.str t), none => some ⟨t, none⟩
      | _, _ => none
  | _ => none

/-- Encoding `json.dumps` of the position value: a Python tuple is written as a JSON
array — this is the lossy step of the codec. -/
def posToJson : PosVal → Json
  | PosVal.str s => Json.str s
  | PosVal.tup a b => Json.arr [Json.str a, Json.str b]
  | PosVal.lst a b => Json.arr [Json.str a, Json.str b]

/-- Decoding `json.loads` of a position value: a JSON array becomes a Python *list*. -/
def posFromJson : Json → Option PosVal
  | Json.str s => some (PosVal.str s)
  | Json.arr [Json.str a, Json.str b] => some (PosVal.lst a b)
  | _ => none

/-- Method `VideoSegment.to_dict` (src/main.py lines 42-51) composed with
`json.dumps`. -/
def segToJson (seg : VideoSegment) : Json :=
  Json.obj [("path", Json.str seg.path),
            ("start_time", Json.num seg.start_time),
            ("end_time", Json.num seg.end_time),
            ("duration", Json.num seg.duration),
            ("effects", Json.arr (seg.effects.map effToJson)),
            ("volume", Json.num seg.volume),
            ("speed", Json.num seg.speed)]

/-- The effects list as decoded for `VideoSegment(**seg_data)`: the parsed
JSON array of dicts, element by element (a malformed element would raise,
modelled as `none`). -/
def decodeEffects : List Json → Option (List EffectEntry)
  | [] => some []
  | j :: rest =>
      match effFromJson j, decodeEffects rest with
      | some e, some es => some (e :: es)
      | _, _ => none

/-- Constructor call `VideoSegment(**seg_data)` on a parsed JSON object: `path`, `start_time`,
`end_time`, `duration` and `effects` are required; `volume` and `speed`
default to `1.0` (the dataclass defaults). -/
def segFromJson : Json → Option VideoSegment
  | Json.obj kvs =>
      match jGet kvs "path", jGet kvs "start_time", jGet kvs "end_time",
            jGet kvs "duration", jGet kvs "effects" with
      | some (Json.str p), some (Json.num st), some (Json.num en),
        some (Json.num d), some (Json.arr effs) =>
          match decodeEffects effs, jGetNumD kvs "volume" 1,
                jGetNumD kvs "speed" 1 with
          | some es, some vol, some sp => some ⟨p, st, en, d, es, vol, sp⟩
          | _, _, _ => none
      | _, _, _, _, _ => none
  | _ => none

/-- Method `TextOverlay.to_dict` (src/main.py lines 65-74) composed with
`json.dumps`. -/
def overlayToJson (o : TextOverlay) : Json :=
  Json.obj [("text", Json.str o.text),
            ("start_time", Json.num o.start_time),
            ("duration", Json.num o.duration),
            ("position", posToJson o.position),
            ("font_size", Json.num o.font_size),
            ("color", Json.str o.color),
            ("font", Json.str o.font)]

/-- Constructor call `TextOverlay(**overlay_data)` on a parsed JSON object; `font` defaults to
`'Arial'`. -/
def overlayFromJson : Json → Option TextOverlay
  | Json.obj kvs =>
      match jGet kvs "text", jGet kvs "start_time", jGet kvs "duration",
            jGet kvs "position", jGet kvs "font_size", jGet kvs "color" with
      | some (Json.str t), some (Json.num st), some (Json.num d),
        some pj, some (Json.num fs), some (Json.str c) =>
          match posFromJson pj,
                (match jGet kvs "font" with
                 | none => some "Arial"
                 | some (Json.str f) => some f
                 | some _ => none) with
          | some pos, some f => some ⟨t, st, d, pos, fs, c, f⟩
          | _, _ => none
      | _, _, _, _, _, _ => none
  | _ => none

/-- The dict serialized by `save_state`, `undo`, `redo` and `save_project`
(identical shape in all four, src/main.py lines 1076-1079 and 1123-1126). -/
def encodeProject (segs : List VideoSegment) (ovs : List TextOverlay) : Json :=
  Json.obj [("segments", Json.arr (segs.map segToJson)),
            ("text_overlays", Json.arr (ovs.map overlayToJson))]

/-- The segment-rebuilding loop of `restore_state` / `load_project`. -/
def decodeSegs : List Json → Option (List VideoSegment)
  | [] => some []
  | j :: rest =>
      match segFromJson j, decodeSegs rest with
      | some s, some ss => some (s :: ss)
      | _, _ => none

/-- The overlay-rebuilding loop of `restore_state` / `load_project`. -/
def decodeOverlays : List Json → Option (List TextOverlay)
  | [] => some []
  | j :: rest =>
      match overlayFromJson j, decodeOverlays rest with
      | some o, some os => some (o :: os)
      | _, _ => none

/-- Decoding of a whole project / snapshot object:
`state.get('segments', [])` and `state.get('text_overlays', [])` rebuilt
through the dataclass constructors (src/main.py lines 1100-1109 and
1170-1180).  A failure anywhere raises in Python; the snapshots and project
files this program writes always decode. -/
def decodeProject (j : Json) : Option (List VideoSegment × List TextOverlay) :=
  match j with
  | Json.obj kvs =>
      let segsJ := match jGet kvs "segments" with
        | none => some []
        | some (Json.arr xs) => some xs
        | some _ => none
      let ovsJ := match jGet kvs "text_overlays" with
        | none => some []
        | some (Json.arr xs) => some xs
        | some _ => none
      match segsJ, ovsJ with
      | some sj, some oj =>
          match decodeSegs sj, decodeOverlays oj with
          | some ss, some os => some (ss, os)
          | _, _ => none
      | _, _ => none
  | _ => none

/-! Section: Export thread references

`export_video` constructs `ExportThread(self.video_segments, self.text_overlays, …)`
and `ExportThread.__init__` does `self.segments = segments` — plain reference
assignment.  `self.video_segments` / `self.text_overlays` are created once and
only ever mutated in place (`append`, `del`, `clear`, index assignment), never
rebound, so a reference captured by the thread keeps denoting the editor's
current, live lists.  The embedding makes the reference explicit. -/

/-- A reference to a segment-list object.  The only segment list ever passed
to `ExportThread` is the editor's own `self.video_segments`. -/
inductive SegListRef where
  | editorSegments
deriving DecidableEq, Repr

/-- A reference to an overlay-list object (only `self.text_overlays` is ever
passed). -/
inductive OvListRef where
  | editorOverlays
deriving DecidableEq, Repr

/-- Export settings built in `export_video` (src/main.py lines 1032-1036). -/
structure ExportSettings where
  codec : String
  bitrate : String
  fps : Option ℤ
deriving DecidableEq, Repr

/-- Constructor `ExportThread.__init__` (src/main.py lines 82-87): stores *references* to
the lists it was given, plus the output path and settings. -/
structure ExportThread where
  segments : SegListRef
  text_overlays : OvListRef
  output_path : String
  settings : ExportSettings
deriving DecidableEq, Repr

/-! Section: Editor state -/

/-- The mutable state of the `VideoEditorPro` window that the timeline core
reads and writes (src/main.py lines 192-201).  Undo/redo snapshots are
`json.dumps` strings, modelled by the JSON values they denote.
`current_segment_index : ℤ` because `-1` marks "no selection". -/
structure EditorState where
  current_video_path : Option String
  video_segments : List VideoSegment
  text_overlays : List TextOverlay
  undo_stack : List Json
  redo_stack : List Json
  clip_duration : ℚ
  in_time : ℚ
  out_time : ℚ
  current_segment_index : ℤ
  export_thread : Option ExportThread

/-- The state right after `__init__` (src/main.py lines 192-201). -/
def initState : EditorState :=
  { current_video_path := none
    video_segments := []
    text_overlays := []
    undo_stack := []
    redo_stack := []
    clip_duration := 0
    in_time := 0
    out_time := 0
    current_segment_index := -1
    export_thread := none }

/-- Dereference a captured segment-list reference in a given editor state:
the thread reads whatever the shared list currently holds. -/
def derefSegments (s : EditorState) : SegListRef → List VideoSegment
  | SegListRef.editorSegments => s.video_segments

/-- Dereference a captured overlay-list reference. -/
def derefOverlays (s : EditorState) : OvListRef → List TextOverlay
  | OvListRef.editorOverlays => s.text_overlays

/-- The snapshot `save_state`/`undo`/`redo` serialize: `json.dumps` of
`{'segments': [...to_dict...], 'text_overlays': [...to_dict...]}`. -/
def stateSnapshot (s : EditorState) : Json :=
  encodeProject s.video_segments s.text_overlays

/-! Section: History manager -/

/-- Method `save_state` (src/main.py lines 1121-1132): push the current snapshot
onto the undo stack (list end = stack top), clear the redo stack, and if the
stack now exceeds 50 entries, `pop(0)` the oldest (front) entry. -/
def save_state (s : EditorState) : EditorState :=
  let u := s.undo_stack ++ [stateSnapshot s]
  let u := if u.length > 50 then u.drop 1 else u
  { s with undo_stack := u, redo_stack := [] }

/-- Method `restore_state` (src/main.py lines 1168-1185): rebuild `video_segments`
and `text_overlays` from the snapshot through the dataclass constructors.
It does *not* touch `current_segment_index`.  Snapshots this program writes
always decode; a malformed snapshot would raise mid-loop (unreachable here),
modelled as leaving the state unchanged. -/
def restore_state (s : EditorState) (st : Json) : EditorState :=
  match decodeProject st with
  | some (segs, ovs) => { s with video_segments := segs, text_overlays := ovs }
  | none => s

/-- Method `undo` (src/main.py lines 1134-1149): no-op on an empty undo stack; else
push the current snapshot onto the redo stack (unbounded), pop the undo top,
restore it. -/
def undo (s : EditorState) : EditorState :=
  match s.undo_stack.getLast? with
  | none => s
  | some top =>
      let s1 := { s with redo_stack := s.redo_stack ++ [stateSnapshot s]
                         undo_stack := s.undo_stack.dropLast }
      restore_state s1 top

/-- Method `redo` (src/main.py lines 1151-1166): symmetric to `undo`; the push onto
the undo stack here has no capacity check. -/
def redo (s : EditorState) : EditorState :=
  match s.redo_stack.getLast? with
  | none => s
  | some top =>
      let s1 := { s with undo_stack := s.undo_stack ++ [stateSnapshot s]
                         redo_stack := s.redo_stack.dropLast }
      restore_state s1 top

/-! Section: Timeline operations -/

/-- In-place update of one list element (`self.video_segments[idx].field = …`
style mutation); out of range leaves the list unchanged. -/
def listModify : List VideoSegment → ℕ → (VideoSegment → VideoSegment) → List VideoSegment
  | [], _, _ => []
  | a :: t, 0, f => f a :: t
  | a :: t, n + 1, f => a :: listModify t n f

/-- The simultaneous assignment
`a[i], a[j] = a[j], a[i]` of `move_segment_up` / `move_segment_down`. -/
def listSwap (l : List VideoSegment) (i j : ℕ) : List VideoSegment :=
  match l[i]?, l[j]? with
  | some a, some b => (l.set i b).set j a
  | _, _ => l

/-- Method `add_segment_to_timeline` (src/main.py lines 815-838): requires an open
video and `in_time < out_time`; on success pushes history and appends a fresh
segment with no effects, unit volume and unit speed. -/
def add_segment_to_timeline (s : EditorState) : EditorState :=
  match s.current_video_path with
  | none => s
  | some p =>
      if s.in_time ≥ s.out_time then s
      else
        let seg : VideoSegment :=
          ⟨p, s.in_time, s.out_time, s.out_time - s.in_time, [], 1, 1⟩
        let s1 := save_state s
        { s1 with video_segments := s1.video_segments ++ [seg] }

/-- Method `move_segment_up` (src/main.py lines 860-869).  The only guard is
`current_segment_index > 0`; if the stale index is past the end of the list
the swap raises `IndexError` *after* `save_state` already pushed (the Qt slot
swallows the exception), leaving the state with the extra history entry and
no swap. -/
def move_segment_up (s : EditorState) : EditorState :=
  if 0 < s.current_segment_index then
    let idx := s.current_segment_index.toNat
    let s1 := save_state s
    if idx < s1.video_segments.length then
      { s1 with video_segments := listSwap s1.video_segments idx (idx - 1)
                current_segment_index := s.current_segment_index - 1 }
    else s1
  else s

/-- Method `move_segment_down` (src/main.py lines 871-880): guard
`0 <= idx < len - 1`, then swap with the successor. -/
def move_segment_down (s : EditorState) : EditorState :=
  if 0 ≤ s.current_segment_index ∧
      s.current_segment_index < (s.video_segments.length : ℤ) - 1 then
    let idx := s.current_segment_index.toNat
    let s1 := save_state s
    { s1 with video_segments := listSwap s1.video_segments idx (idx + 1)
              current_segment_index := s.current_segment_index + 1 }
  else s

/-- Method `remove_segment` (src/main.py lines 882-888): on a valid index, push
history, delete the segment, reset the selection to `-1`; otherwise the
method silently returns — no dialog, no state change of any kind. -/
def remove_segment (s : EditorState) : EditorState :=
  if 0 ≤ s.current_segment_index ∧
      s.current_segment_index < (s.video_segments.length : ℤ) then
    let s1 := save_state s
    { s1 with video_segments := s1.video_segments.eraseIdx s.current_segment_index.toNat
              current_segment_index := -1 }
  else s

/-- Method `clear_timeline` (src/main.py lines 890-900), on the "Yes" answer to the
confirmation dialog: push history, empty the segment list. -/
def clear_timeline (s : EditorState) : EditorState :=
  let s1 := save_state s
  { s1 with video_segments := [] }

/-- The values read from the effect controls when "Apply Effects" is
clicked: sliders normalized by `/100`, the rotation spinbox, the speed
spinbox and the three filter checkboxes. -/
structure EffectControls where
  brightness : ℚ
  contrast : ℚ
  rotation : ℤ
  speed : ℚ
  blackwhite : Bool
  mirror_x : Bool
  mirror_y : Bool
deriving DecidableEq, Repr

/-- The effects list `apply_effects` builds (src/main.py lines 911-940),
in its append order: brightness, contrast, rotation, then the blackwhite /
mirror_x / mirror_y filters. -/
def computeEffects (c : EffectControls) : List EffectEntry :=
  (if c.brightness ≠ 1 then [⟨"brightness", some c.brightness⟩] else []) ++
  (if c.contrast ≠ 1 then [⟨"contrast", some c.contrast⟩] else []) ++
  (if c.rotation ≠ 0 then [⟨"rotate", some (c.rotation : ℚ)⟩] else []) ++
  (if c.blackwhite then [⟨"blackwhite", none⟩] else []) ++
  (if c.mirror_x then [⟨"mirror_x", none⟩] else []) ++
  (if c.mirror_y then [⟨"mirror_y", none⟩] else [])

/-- Method `apply_effects` (src/main.py lines 903-943): on a valid selection, push
history, then `segment.effects.clear()` followed by the appends — a full
replacement of the effects list — and set the segment's speed. -/
def apply_effects (s : EditorState) (c : EffectControls) : EditorState :=
  if 0 ≤ s.current_segment_index ∧
      s.current_segment_index < (s.video_segments.length : ℤ) then
    let s1 := save_state s
    let f := fun seg => { seg with effects := computeEffects c, speed := c.speed }
    { s1 with video_segments := listModify s1.video_segments s.current_segment_index.toNat f }
  else s

/-- Method `apply_volume` (src/main.py lines 945-954): on a valid selection, push
history and set the segment's volume to the slider value / 100. -/
def apply_volume (s : EditorState) (v : ℚ) : EditorState :=
  if 0 ≤ s.current_segment_index ∧
      s.current_segment_index < (s.video_segments.length : ℤ) then
    let s1 := save_state s
    let f := fun seg => { seg with volume := v }
    { s1 with video_segments := listModify s1.video_segments s.current_segment_index.toNat f }
  else s

/-- The choices of the text-overlay position combo box. -/
inductive PositionChoice where
  | center | top | bottom | left | right
deriving DecidableEq, Repr

/-- Mapping `position_map` (src/main.py lines 971-977): `'center'` maps to a plain
string, every other choice to a 2-tuple. -/
def position_map : PositionChoice → PosVal
  | PositionChoice.center => PosVal.str "center"
  | PositionChoice.top => PosVal.tup "center" "top"
  | PositionChoice.bottom => PosVal.tup "center" "bottom"
  | PositionChoice.left => PosVal.tup "left" "center"
  | PositionChoice.right => PosVal.tup "right" "center"

/-- The values read from the text-tab controls when "Add Text Overlay" is
clicked (`text` is the already-stripped input text). -/
structure TextControls where
  text : String
  duration : ℚ
  position : PositionChoice
  font_size : ℚ
  color : String
  font : String
deriving DecidableEq, Repr

/-- Method `add_text_overlay` (src/main.py lines 964-992): requires non-empty text;
the overlay's `start_time` is the current in point and its position comes
from `position_map`. -/
def add_text_overlay (s : EditorState) (c : TextControls) : EditorState :=
  if c.text = "" then s
  else
    let ov : TextOverlay :=
      ⟨c.text, s.in_time, c.duration, position_map c.position, c.font_size,
        c.color, c.font⟩
    let s1 := save_state s
    { s1 with text_overlays := s1.text_overlays ++ [ov] }

/-- Method `remove_text_overlay` (src/main.py lines 994-1000): `row` is the list
widget's current row (`-1` when nothing is selected).  A stale row past the
end would raise after the `save_state` push, like `move_segment_up`. -/
def remove_text_overlay (s : EditorState) (row : ℤ) : EditorState :=
  if 0 ≤ row then
    let s1 := save_state s
    if row < (s1.text_overlays.length : ℤ) then
      { s1 with text_overlays := s1.text_overlays.eraseIdx row.toNat }
    else s1
  else s

/-- Slot `on_timeline_item_clicked` (src/main.py lines 856-858): clicking an
existing row selects it; Qt only reports rows of existing items. -/
def select_segment (s : EditorState) (i : ℤ) : EditorState :=
  if 0 ≤ i ∧ i < (s.video_segments.length : ℤ) then
    { s with current_segment_index := i }
  else s

/-- The success path of `open_video` (src/main.py lines 712-737): records the
path, reads the clip duration, sets `out_time` to it and `in_time` to 0. -/
def open_video (s : EditorState) (path : String) (dur : ℚ) : EditorState :=
  { s with current_video_path := some path
           clip_duration := dur
           out_time := dur
           in_time := 0 }

/-! Section: Selection / range controller -/

/-- Method `set_in_point` (src/main.py lines 753-761), with `pos` the player
position in seconds (`pos_ms / 1000`).  Note the reconciliation guard is
`if self.out_time and …`: it is skipped whenever `out_time == 0.0`
(false-y in Python), and `in_time` is never clamped to the clip duration. -/
def set_in_point (s : EditorState) (pos : ℚ) : EditorState :=
  let it := pos
  let it := if it < 0 then 0 else it
  if s.out_time ≠ 0 ∧ it > s.out_time then
    { s with in_time := it, out_time := it }
  else
    { s with in_time := it }

/-- Method `set_out_point` (src/main.py lines 763-771): clamp above to the clip
duration, then drag `in_time` down if the new out point undercuts it (this
branch has no truthiness guard). -/
def set_out_point (s : EditorState) (pos : ℚ) : EditorState :=
  let ot := pos
  let ot := if ot > s.clip_duration then s.clip_duration else ot
  if ot < s.in_time then
    { s with out_time := ot, in_time := ot }
  else
    { s with out_time := ot }

/-! Section: Export -/

/-- Method `export_video` (src/main.py lines 1003-1053): rejected on an empty
timeline or a cancelled save dialog; otherwise constructs an `ExportThread`
holding references to the live `video_segments` / `text_overlays` lists and
starts it. -/
def export_video (s : EditorState) (output_path : String)
    (settings : ExportSettings) : EditorState :=
  if s.video_segments = [] then s
  else if output_path = "" then s
  else
    let t : ExportThread :=
      ⟨SegListRef.editorSegments, OvListRef.editorOverlays, output_path, settings⟩
    { s with export_thread := some t }

/-- The engine calls `ExportThread.run` chains onto a clip, in order. -/
inductive EngineOp where
  | subclip (path : String) (s e : ℚ)
  | speedx (f : ℚ)
  | colorx (f : ℚ)
  | rotate (deg : ℚ)
  | mirror_x
  | mirror_y
  | blackwhite
  | volumex (v : ℚ)
deriving DecidableEq, Repr

/-- The per-effect dispatch of `ExportThread.run` (src/main.py lines
102-121): brightness maps to `colorx`; the `'contrast'` and `'blur'` branches
are `pass` — the clip flows through unchanged; an unknown type hits no
branch. -/
def applyEffectToClip (clip : List EngineOp) (e : EffectEntry) : List EngineOp :=
  if e.type = "brightness" then clip ++ [EngineOp.colorx (e.value.getD 1)]
  else if e.type = "contrast" then clip
  else if e.type = "blur" then clip
  else if e.type = "rotate" then clip ++ [EngineOp.rotate (e.value.getD 0)]
  else if e.type = "mirror_x" then clip ++ [EngineOp.mirror_x]
  else if e.type = "mirror_y" then clip ++ [EngineOp.mirror_y]
  else if e.type = "blackwhite" then clip ++ [EngineOp.blackwhite]
  else clip

/-- The operation chain `ExportThread.run` builds for one segment
(src/main.py lines 94-127): subclip, optional speed, the effects in stored
order, optional volume when the clip has an audio track. -/
def buildSegmentClip (hasAudio : Bool) (seg : VideoSegment) : List EngineOp :=
  let clip := [EngineOp.subclip seg.path seg.start_time seg.end_time]
  let clip := if seg.speed ≠ 1 then clip ++ [EngineOp.speedx seg.speed] else clip
  let clip := seg.effects.foldl applyEffectToClip clip
  if hasAudio ∧ seg.volume ≠ 1 then clip ++ [EngineOp.volumex seg.volume] else clip

/-! Section: Timeline display -/

/-- The total duration `update_timeline_display` accumulates and surfaces in
the status bar (src/main.py lines 840-854):
`total_duration += segment.duration / segment.speed` over the segments. -/
def timelineTotalDuration (segs : List VideoSegment) : ℚ :=
  segs.foldl (fun acc seg => acc + seg.duration / seg.speed) 0

/-! Section: Commands and reachability -/

/-- One user command handled by the timeline core. -/
inductive Cmd where
  | addSegment
  | moveUp
  | moveDown
  | removeSeg
  | clearTimeline
  | applyEffects (c : EffectControls)
  | applyVolume (v : ℚ)
  | addOverlay (c : TextControls)
  | removeOverlay (row : ℤ)
  | undoCmd
  | redoCmd
  | selectSegment (i : ℤ)
  | setIn (pos : ℚ)
  | setOut (pos : ℚ)
  | openVideo (path : String) (dur : ℚ)
  | exportVideo (output_path : String) (settings : ExportSettings)

/-- Dispatch one command against the editor state. -/
def applyCmd (s : EditorState) : Cmd → EditorState
  | Cmd.addSegment => add_segment_to_timeline s
  | Cmd.moveUp => move_segment_up s
  | Cmd.moveDown => move_segment_down s
  | Cmd.removeSeg => remove_segment s
  | Cmd.clearTimeline => clear_timeline s
  | Cmd.applyEffects c => apply_effects s c
  | Cmd.applyVolume v => apply_volume s v
  | Cmd.addOverlay c => add_text_overlay s c
  | Cmd.removeOverlay row => remove_text_overlay s row
  | Cmd.undoCmd => undo s
  | Cmd.redoCmd => redo s
  | Cmd.selectSegment i => select_segment s i
  | Cmd.setIn pos => set_in_point s pos
  | Cmd.setOut pos => set_out_point s pos
  | Cmd.openVideo p dur => open_video s p dur
  | Cmd.exportVideo p st => export_video s p st

/-- Run a command sequence from a state. -/
def runCmds (s : EditorState) (cs : List Cmd) : EditorState :=
  cs.foldl applyCmd s

/-- A state the application can reach from start-up. -/
def Reachable (s : EditorState) : Prop :=
  ∃ cs : List Cmd, runCmds initState cs = s

/-- The mutating timeline operations the undo/redo claims quantify over. -/
def MutatingCmd : Cmd → Prop
  | Cmd.addSegment => True
  | Cmd.moveUp => True
  | Cmd.moveDown => True
  | Cmd.removeSeg => True
  | Cmd.clearTimeline => True
  | Cmd.applyEffects _ => True
  | Cmd.applyVolume _ => True
  | Cmd.addOverlay _ => True
  | Cmd.removeOverlay _ => True
  | _ => False

/-- Success condition of a mutating command in a given state: its validation
guard holds and the mutation completes without raising. -/
def mutSucceeds (s : EditorState) : Cmd → Prop
  | Cmd.addSegment => s.current_video_path ≠ none ∧ s.in_time < s.out_time
  | Cmd.moveUp =>
      0 < s.current_segment_index ∧
        s.current_segment_index < (s.video_segments.length : ℤ)
  | Cmd.moveDown =>
      0 ≤ s.current_segment_index ∧
        s.current_segment_index < (s.video_segments.length : ℤ) - 1
  | Cmd.removeSeg =>
      0 ≤ s.current_segment_index ∧
        s.current_segment_index < (s.video_segments.length : ℤ)
  | Cmd.clearTimeline => True
  | Cmd.applyEffects _ =>
      0 ≤ s.current_segment_index ∧
        s.current_segment_index < (s.video_segments.length : ℤ)
  | Cmd.applyVolume _ =>
      0 ≤ s.current_segment_index ∧
        s.current_segment_index < (s.video_segments.length : ℤ)
  | Cmd.addOverlay c => c.text ≠ ""
  | Cmd.removeOverlay row => 0 ≤ row ∧ row < (s.text_overlays.length : ℤ)
  | _ => False

/-! Section: Canonicalisation forced by the JSON codec

A snapshot/project round-trip is the identity on segments and on every
overlay field except `position`: a tuple comes back as a list. -/

/-- The position value after one JSON round-trip. -/
def canonPos : PosVal → PosVal
  | PosVal.str s => PosVal.str s
  | PosVal.tup a b => PosVal.lst a b
  | PosVal.lst a b => PosVal.lst a b

/-- An overlay after one JSON round-trip. -/
def canonOverlay (o : TextOverlay) : TextOverlay :=
  { o with position := canonPos o.position }

/-- An overlay list after one JSON round-trip. -/
def canonOverlays (ovs : List TextOverlay) : List TextOverlay :=
  ovs.map canonOverlay

/-! Section: project persistence.

In the source, `save_project` writes `json.dumps` of the same dict shape the
snapshots use, and `load_project` parses the file and rebuilds the dataclass
lists through the same constructor loops as `restore_state`.  The codec pair
is modelled on the data that flows through the file. -/

/-- Method `save_project` (src/main.py lines 1068-1086): the JSON document
written for a timeline. -/
def save_project (segs : List VideoSegment) (ovs : List TextOverlay) : Json :=
  encodeProject segs ovs

/-- Method `load_project` (src/main.py lines 1088-1118): the segment and
overlay lists rebuilt from a parsed project document (an exception while
rebuilding surfaces as a dialog; modelled as `none`). -/
def load_project (j : Json) : Option (List VideoSegment × List TextOverlay) :=
  decodeProject j

/-! Section: statement-level definitions used by the claims. -/

/-- Size bound maintained jointly by the two history stacks. -/
def histBound (s : EditorState) : Prop :=
  s.undo_stack.length + s.redo_stack.length ≤ 50

/-- Error taxonomy of the specification (§7). -/
inductive ValidationError where
  | indexOutOfRange
deriving DecidableEq, Repr

/-- Modelled from the spec (§4.1), for comparison with the source method
`remove_segment`: "removeSegment(index): fails with ValidationError if index
out of range; otherwise deletes and resets selectedIndex to −1." -/
def removeSegmentSpec (segs : List VideoSegment) (idx : ℤ) :
    Except ValidationError (List VideoSegment) :=
  if 0 ≤ idx ∧ idx < (segs.length : ℤ) then
    Except.ok (segs.eraseIdx idx.toNat)
  else
    Except.error ValidationError.indexOutOfRange

/-! Section: concrete states used by counterexamples and witnesses. -/

/-- A sample segment. -/
def segA : VideoSegment := ⟨"a.mp4", 0, 5, 5, [], 1, 1⟩

/-- An overlay whose position is a tuple (any position choice other than
"center" produces one). -/
def ovTup : TextOverlay :=
  ⟨"hello", 0, 5, PosVal.tup "center" "top", 50, "white", "Arial"⟩

/-- An overlay whose position is the plain string "center". -/
def ovStr : TextOverlay :=
  ⟨"hello", 0, 5, PosVal.str "center", 50, "white", "Arial"⟩

/-- A state with an open 5-second video, the full range selected, and one
tuple-positioned overlay on the timeline. -/
def c1pre : EditorState :=
  { initState with
      current_video_path := some "v.mp4"
      clip_duration := 5
      in_time := 0
      out_time := 5
      text_overlays := [ovTup] }

/-- Like `c1pre` but with a string-positioned overlay. -/
def c1preStr : EditorState :=
  { initState with
      current_video_path := some "v.mp4"
      clip_duration := 5
      in_time := 0
      out_time := 5
      text_overlays := [ovStr] }

/-- A range-controller state with a loaded 5-second clip and
`in_time = out_time = 0`. -/
def rs5 : EditorState :=
  { initState with clip_duration := 5, in_time := 0, out_time := 0 }

/-- A state whose only segment is `segA` while segment 5 is (stale-)selected. -/
def c6bad : EditorState :=
  { initState with video_segments := [segA], current_segment_index := 5 }

/-- A reachable run: open a video, add two segments, click row 1, undo.
The undo restores the one-segment timeline but leaves the selection at 1. -/
def c7run : EditorState :=
  runCmds initState
    [Cmd.openVideo "a.mp4" 10, Cmd.addSegment, Cmd.addSegment,
      Cmd.selectSegment 1, Cmd.undoCmd]

/-- Export settings for the sample export job. -/
def c4settings : ExportSettings := ⟨"libx264", "5000k", none⟩

/-- A state with one segment, selected, ready to export. -/
def c4s0 : EditorState :=
  { initState with video_segments := [segA], current_segment_index := 0 }

/-- The state just after the export job starts. -/
def c4s1 : EditorState := export_video c4s0 "out.mp4" c4settings

/-- The thread object `export_video` constructs in `c4s1`. -/
def c4job : ExportThread :=
  ⟨SegListRef.editorSegments, OvListRef.editorOverlays, "out.mp4", c4settings⟩

/-- A range-controller state with a loaded 10-second clip and range [2, 4]. -/
def rsW : EditorState :=
  { initState with clip_duration := 10, in_time := 2, out_time := 4 }

/-- A state whose only segment is `segA`, validly selected at index 0. -/
def c6ok : EditorState :=
  { initState with video_segments := [segA], current_segment_index := 0 }

/-- Sample effect-control values: brightness 1.2, contrast 1.4, no rotation,
unit speed, black-and-white checked. -/
def cW : EffectControls := ⟨6/5, 7/5, 0, 1, true, false, false⟩

/-- The two-segment timeline of the declared-duration scenario:
`[Segment(0,5,speed=1), Segment(0,3,speed=2)]`. -/
def segsC9 : List VideoSegment :=
  [⟨"a.mp4", 0, 5, 5, [], 1, 1⟩, ⟨"b.mp4", 0, 3, 3, [], 1, 2⟩]

/-! Section: codec round-trip lemmas. -/

theorem effFromJson_effToJson (e : EffectEntry) :
    effFromJson (effToJson e) = some e := by
  obtain ⟨t, v⟩ := e
  cases v <;> rfl

theorem posFromJson_posToJson (p : PosVal) :
    posFromJson (posToJson p) = some (canonPos p) := by
  cases p <;> rfl

theorem decodeEffects_map (es : List EffectEntry) :
    decodeEffects (es.map effToJson) = some es := by
  induction es with
  | nil => rfl
  | cons e tl ih =>
      simp only [List.map_cons, decodeEffects, effFromJson_effToJson, ih]

theorem segFromJson_segToJson (seg : VideoSegment) :
    segFromJson (segToJson seg) = some seg := by
  obtain ⟨p, st, en, d, es, vol, sp⟩ := seg
  simp [segToJson, segFromJson, jGet, jGetNumD, List.find?, decodeEffects_map]

theorem overlayFromJson_overlayToJson (o : TextOverlay) :
    overlayFromJson (overlayToJson o) = some (canonOverlay o) := by
  obtain ⟨t, st, d, pos, fs, c, f⟩ := o
  cases pos <;> rfl

theorem decodeSegs_map (segs : List VideoSegment) :
    decodeSegs (segs.map segToJson) = some segs := by
  induction segs with
  | nil => rfl
  | cons s tl ih =>
      simp only [List.map_cons, decodeSegs, segFromJson_segToJson, ih]

theorem decodeOverlays_map (ovs : List TextOverlay) :
    decodeOverlays (ovs.map overlayToJson) = some (canonOverlays ovs) := by
  induction ovs with
  | nil => rfl
  | cons o tl ih =>
      simp only [List.map_cons, decodeOverlays, overlayFromJson_overlayToJson,
        ih, canonOverlays]

theorem decodeProject_encodeProject (segs : List VideoSegment)
    (ovs : List TextOverlay) :
    decodeProject (encodeProject segs ovs) = some (segs, canonOverlays ovs) := by
  simp [encodeProject, decodeProject, jGet, List.find?, decodeSegs_map,
    decodeOverlays_map]

/-! Section: history manager lemmas. -/

theorem save_state_getLast (s : EditorState) :
    (save_state s).undo_stack.getLast? = some (stateSnapshot s) := by
  show (if (s.undo_stack ++ [stateSnapshot s]).length > 50
        then (s.undo_stack ++ [stateSnapshot s]).drop 1
        else s.undo_stack ++ [stateSnapshot s]).getLast? = some (stateSnapshot s)
  split
  next h =>
    cases hs : s.undo_stack with
    | nil => rw [hs] at h; simp at h
    | cons a t => simp [List.getLast?_concat]
  next => rw [List.getLast?_concat]

theorem save_state_redo_stack (s : EditorState) :
    (save_state s).redo_stack = [] := rfl

theorem undo_restores (s' : EditorState) (segs0 : List VideoSegment)
    (ovs0 : List TextOverlay)
    (h : s'.undo_stack.getLast? = some (encodeProject segs0 ovs0)) :
    undo s' =
      { s' with
          video_segments := segs0
          text_overlays := canonOverlays ovs0
          undo_stack := s'.undo_stack.dropLast
          redo_stack := s'.redo_stack ++ [stateSnapshot s'] } := by
  unfold undo
  split
  next heq => simp [heq] at h
  next top heq =>
    rw [h] at heq
    injection heq with heq
    subst heq
    unfold restore_state
    rw [decodeProject_encodeProject]

theorem redo_restores (s' : EditorState) (segs0 : List VideoSegment)
    (ovs0 : List TextOverlay)
    (h : s'.redo_stack.getLast? = some (encodeProject segs0 ovs0)) :
    redo s' =
      { s' with
          video_segments := segs0
          text_overlays := canonOverlays ovs0
          redo_stack := s'.redo_stack.dropLast
          undo_stack := s'.undo_stack ++ [stateSnapshot s'] } := by
  unfold redo
  split
  next heq => simp [heq] at h
  next top heq =>
    rw [h] at heq
    injection heq with heq
    subst heq
    unfold restore_state
    rw [decodeProject_encodeProject]

/-- Every successful mutating command first pushes the pre-mutation snapshot
(via `save_state`, which also clears the redo stack) and never touches the
stacks afterwards. -/
theorem mut_shape (s : EditorState) (m : Cmd) (hm : MutatingCmd m)
    (hs : mutSucceeds s m) :
    (applyCmd s m).undo_stack.getLast? = some (stateSnapshot s) ∧
    (applyCmd s m).redo_stack = [] := by
  cases m with
  | addSegment =>
      simp only [applyCmd]
      unfold add_segment_to_timeline
      split
      next heq => exact absurd heq hs.1
      next p heq =>
        split
        next hge => exact absurd hs.2 (not_lt.mpr hge)
        next => exact ⟨save_state_getLast s, rfl⟩
  | moveUp =>
      simp only [applyCmd]
      unfold move_segment_up
      split
      next =>
        dsimp only
        split
        next => exact ⟨save_state_getLast s, rfl⟩
        next => exact ⟨save_state_getLast s, rfl⟩
      next h => exact absurd hs.1 h
  | moveDown =>
      simp only [applyCmd]
      unfold move_segment_down
      split
      next => exact ⟨save_state_getLast s, rfl⟩
      next h => exact absurd hs h
  | removeSeg =>
      simp only [applyCmd]
      unfold remove_segment
      split
      next => exact ⟨save_state_getLast s, rfl⟩
      next h => exact absurd hs h
  | clearTimeline =>
      simp only [applyCmd]
      exact ⟨save_state_getLast s, rfl⟩
  | applyEffects c =>
      simp only [applyCmd]
      unfold apply_effects
      split
      next => exact ⟨save_state_getLast s, rfl⟩
      next h => exact absurd hs h
  | applyVolume v =>
      simp only [applyCmd]
      unfold apply_volume
      split
      next => exact ⟨save_state_getLast s, rfl⟩
      next h => exact absurd hs h
  | addOverlay c =>
      simp only [applyCmd]
      unfold add_text_overlay
      split
      next heq => exact absurd heq hs
      next => exact ⟨save_state_getLast s, rfl⟩
  | removeOverlay row =>
      simp only [applyCmd]
      unfold remove_text_overlay
      split
      next =>
        dsimp only
        split
        next => exact ⟨save_state_getLast s, rfl⟩
        next => exact ⟨save_state_getLast s, rfl⟩
      next h => exact absurd hs.1 h
  | undoCmd => exact (hm : False).elim
  | redoCmd => exact (hm : False).elim
  | selectSegment i => exact (hm : False).elim
  | setIn pos => exact (hm : False).elim
  | setOut pos => exact (hm : False).elim
  | openVideo p dur => exact (hm : False).elim
  | exportVideo p st => exact (hm : False).elim

/-! Section: claim C1. -/

/-- C1 (amended).  For every state and every successful mutating operation
(append segment, move up/down, remove segment, clear, replace effects, set
volume, add/remove overlay), `undo` immediately afterwards restores the
segment sequence exactly and the overlay sequence up to the JSON snapshot
round-trip (a tuple-valued overlay position comes back as the corresponding
two-element list, everything else is restored exactly); `redo` immediately
after that `undo` restores the post-mutation segment sequence exactly and the
post-mutation overlay sequence up to the same position canonicalisation. -/
theorem C1_undo_redo_roundtrip (s : EditorState) (m : Cmd)
    (hm : MutatingCmd m) (hs : mutSucceeds s m) :
    (undo (applyCmd s m)).video_segments = s.video_segments ∧
    (undo (applyCmd s m)).text_overlays = canonOverlays s.text_overlays ∧
    (redo (undo (applyCmd s m))).video_segments = (applyCmd s m).video_segments ∧
    (redo (undo (applyCmd s m))).text_overlays =
      canonOverlays (applyCmd s m).text_overlays := by
  obtain ⟨hlast, hredo⟩ := mut_shape s m hm hs
  have hu := undo_restores (applyCmd s m) s.video_segments s.text_overlays hlast
  have hrget : (undo (applyCmd s m)).redo_stack.getLast? =
      some (stateSnapshot (applyCmd s m)) := by
    rw [hu]
    show ((applyCmd s m).redo_stack ++ [stateSnapshot (applyCmd s m)]).getLast? = _
    rw [List.getLast?_concat]
  have hv := redo_restores (undo (applyCmd s m)) (applyCmd s m).video_segments
      (applyCmd s m).text_overlays hrget
  refine ⟨?_, ?_, ?_, ?_⟩
  · rw [hu]
  · rw [hu]
  · rw [hv]
  · rw [hv]

/-- C1 as stated is false: starting from `c1pre` (whose only overlay has the
tuple position built by the "top" choice), appending a segment is a
successful mutation, yet `undo` does not restore the overlay sequence to
exactly its pre-mutation value — the position comes back as a list. -/
theorem C1_undo_exact_counterexample :
    mutSucceeds c1pre Cmd.addSegment ∧
    MutatingCmd Cmd.addSegment ∧
    (undo (applyCmd c1pre Cmd.addSegment)).text_overlays ≠ c1pre.text_overlays := by
  refine ⟨⟨by decide, by decide⟩, trivial, by decide⟩

/-- Witness for `C1_undo_redo_roundtrip` at a concrete state (one
string-positioned overlay, append a segment): every hypothesis is discharged
at the concrete input. -/
theorem C1_witness :
    (MutatingCmd Cmd.addSegment ∧ mutSucceeds c1preStr Cmd.addSegment) ∧
    ((undo (applyCmd c1preStr Cmd.addSegment)).video_segments =
        c1preStr.video_segments ∧
      (undo (applyCmd c1preStr Cmd.addSegment)).text_overlays =
        canonOverlays c1preStr.text_overlays ∧
      (redo (undo (applyCmd c1preStr Cmd.addSegment))).video_segments =
        (applyCmd c1preStr Cmd.addSegment).video_segments ∧
      (redo (undo (applyCmd c1preStr Cmd.addSegment))).text_overlays =
        canonOverlays (applyCmd c1preStr Cmd.addSegment).text_overlays) :=
  ⟨⟨trivial, ⟨by decide, by decide⟩⟩,
    C1_undo_redo_roundtrip c1preStr Cmd.addSegment trivial ⟨by decide, by decide⟩⟩

/-! Section: claim C3. -/

theorem histBound_init : histBound initState := by
  simp [histBound, initState]

theorem histBound_of_stacks (s t : EditorState) (h : histBound s)
    (hu : t.undo_stack = s.undo_stack) (hr : t.redo_stack = s.redo_stack) :
    histBound t := by
  unfold histBound at *
  rw [hu, hr]
  exact h

theorem histBound_save_state (s : EditorState) (h : histBound s) :
    histBound (save_state s) := by
  unfold histBound at h
  have hr : (save_state s).redo_stack = [] := rfl
  unfold histBound
  rw [hr]
  show (if (s.undo_stack ++ [stateSnapshot s]).length > 50
        then (s.undo_stack ++ [stateSnapshot s]).drop 1
        else s.undo_stack ++ [stateSnapshot s]).length + ([] : List Json).length ≤ 50
  split
  next hgt =>
    simp only [List.length_drop, List.length_append, List.length_cons,
      List.length_nil]
    omega
  next hle =>
    simp only [List.length_append, List.length_cons, List.length_nil] at hle ⊢
    omega

theorem histBound_applyCmd (s : EditorState) (c : Cmd) (h : histBound s) :
    histBound (applyCmd s c) := by
  have hsave := histBound_save_state s h
  cases c with
  | addSegment =>
      simp only [applyCmd]
      unfold add_segment_to_timeline
      split
      next => exact h
      next p heq =>
        split
        next => exact h
        next => exact histBound_of_stacks (save_state s) _ hsave rfl rfl
  | moveUp =>
      simp only [applyCmd]
      unfold move_segment_up
      split
      next =>
        dsimp only
        split
        next => exact histBound_of_stacks (save_state s) _ hsave rfl rfl
        next => exact hsave
      next => exact h
  | moveDown =>
      simp only [applyCmd]
      unfold move_segment_down
      split
      next => exact histBound_of_stacks (save_state s) _ hsave rfl rfl
      next => exact h
  | removeSeg =>
      simp only [applyCmd]
      unfold remove_segment
      split
      next => exact histBound_of_stacks (save_state s) _ hsave rfl rfl
      next => exact h
  | clearTimeline =>
      simp only [applyCmd]
      exact histBound_of_stacks (save_state s) _ hsave rfl rfl
  | applyEffects c =>
      simp only [applyCmd]
      unfold apply_effects
      split
      next => exact histBound_of_stacks (save_state s) _ hsave rfl rfl
      next => exact h
  | applyVolume v =>
      simp only [applyCmd]
      unfold apply_volume
      split
      next => exact histBound_of_stacks (save_state s) _ hsave rfl rfl
      next => exact h
  | addOverlay c =>
      simp only [applyCmd]
      unfold add_text_overlay
      split
      next => exact h
      next => exact histBound_of_stacks (save_state s) _ hsave rfl rfl
  | removeOverlay row =>
      simp only [applyCmd]
      unfold remove_text_overlay
      split
      next =>
        dsimp only
        split
        next => exact histBound_of_stacks (save_state s) _ hsave rfl rfl
        next => exact hsave
      next => exact h
  | undoCmd =>
      simp only [applyCmd]
      unfold undo
      split
      next => exact h
      next top heq =>
        have hne : s.undo_stack ≠ [] := by
          intro he
          rw [he] at heq
          simp at heq
        have hlen : 0 < s.undo_stack.length := List.length_pos.mpr hne
        unfold restore_state
        split
        next segs ovs hdec =>
          unfold histBound at h ⊢
          simp only [List.length_dropLast, List.length_append, List.length_cons,
            List.length_nil]
          omega
        next =>
          unfold histBound at h ⊢
          simp only [List.length_dropLast, List.length_append, List.length_cons,
            List.length_nil]
          omega
  | redoCmd =>
      simp only [applyCmd]
      unfold redo
      split
      next => exact h
      next top heq =>
        have hne : s.redo_stack ≠ [] := by
          intro he
          rw [he] at heq
          simp at heq
        have hlen : 0 < s.redo_stack.length := List.length_pos.mpr hne
        unfold restore_state
        split
        next segs ovs hdec =>
          unfold histBound at h ⊢
          simp only [List.length_dropLast, List.length_append, List.length_cons,
            List.length_nil]
          omega
        next =>
          unfold histBound at h ⊢
          simp only [List.length_dropLast, List.length_append, List.length_cons,
            List.length_nil]
          omega
  | selectSegment i =>
      simp only [applyCmd]
      unfold select_segment
      split
      next => exact histBound_of_stacks s _ h rfl rfl
      next => exact h
  | setIn pos =>
      simp only [applyCmd]
      unfold set_in_point
      dsimp only
      split <;> split <;> exact histBound_of_stacks s _ h rfl rfl
  | setOut pos =>
      simp only [applyCmd]
      unfold set_out_point
      dsimp only
      split <;> split <;> exact histBound_of_stacks s _ h rfl rfl
  | openVideo p dur =>
      simp only [applyCmd]
      exact histBound_of_stacks s _ h rfl rfl
  | exportVideo p st =>
      simp only [applyCmd]
      unfold export_video
      split
      next => exact h
      next =>
        split
        next => exact h
        next => exact histBound_of_stacks s _ h rfl rfl

theorem histBound_runCmds (cs : List Cmd) :
    ∀ s : EditorState, histBound s → histBound (runCmds s cs) := by
  induction cs with
  | nil => intro s h; exact h
  | cons c tl ih =>
      intro s h
      exact ih (applyCmd s c) (histBound_applyCmd s c h)

/-- C3.  In every reachable state the undo stack and the redo stack each hold
at most 50 snapshots; moreover, when the undo stack is full, the next push
(there is no capacity check on the other pushes, but they can never overflow,
because the two stack sizes jointly never exceed 50) evicts the oldest
(front) entry and keeps the newest. -/
theorem C3_history_bounded (s : EditorState) (hr : Reachable s) :
    s.undo_stack.length ≤ 50 ∧ s.redo_stack.length ≤ 50 ∧
    (s.undo_stack.length = 50 →
      (save_state s).undo_stack = s.undo_stack.drop 1 ++ [stateSnapshot s]) := by
  obtain ⟨cs, hcs⟩ := hr
  have hb : histBound s := hcs ▸ histBound_runCmds cs initState histBound_init
  unfold histBound at hb
  refine ⟨by omega, by omega, ?_⟩
  intro h50
  show (if (s.undo_stack ++ [stateSnapshot s]).length > 50
        then (s.undo_stack ++ [stateSnapshot s]).drop 1
        else s.undo_stack ++ [stateSnapshot s]) =
      s.undo_stack.drop 1 ++ [stateSnapshot s]
  rw [if_pos (by simp only [List.length_append, List.length_cons,
    List.length_nil]; omega)]
  rw [List.drop_append_of_le_length (by omega)]

/-- Witness for `C3_history_bounded`: the start-up state is reachable by the
empty command sequence. -/
theorem C3_witness :
    Reachable initState ∧
    (initState.undo_stack.length ≤ 50 ∧ initState.redo_stack.length ≤ 50 ∧
      (initState.undo_stack.length = 50 →
        (save_state initState).undo_stack =
          initState.undo_stack.drop 1 ++ [stateSnapshot initState])) :=
  ⟨⟨[], rfl⟩, C3_history_bounded initState ⟨[], rfl⟩⟩

/-! Section: claim C2. -/

theorem canonOverlay_eq_of_pos (o : TextOverlay)
    (h : canonPos o.position = o.position) : canonOverlay o = o := by
  unfold canonOverlay
  rw [h]

theorem canonOverlays_eq (ovs : List TextOverlay)
    (h : ∀ o ∈ ovs, canonPos o.position = o.position) :
    canonOverlays ovs = ovs := by
  induction ovs with
  | nil => rfl
  | cons o tl ih =>
      unfold canonOverlays
      rw [List.map_cons]
      rw [canonOverlay_eq_of_pos o (h o (List.mem_cons_self o tl))]
      have := ih (fun x hx => h x (List.mem_cons_of_mem o hx))
      unfold canonOverlays at this
      rw [this]

/-- C2 (amended).  Serializing any timeline with `save_project` and
deserializing with `load_project` reproduces every segment field, every
overlay field and the order exactly, except that a tuple-valued overlay
position is read back as the corresponding two-element JSON list; in
particular the round-trip is the identity whenever no overlay position is a
tuple (it is a string or a list). -/
theorem C2_save_load_roundtrip (segs : List VideoSegment)
    (ovs : List TextOverlay) :
    load_project (save_project segs ovs) = some (segs, canonOverlays ovs) ∧
    ((∀ o ∈ ovs, canonPos o.position = o.position) →
      load_project (save_project segs ovs) = some (segs, ovs)) := by
  refine ⟨decodeProject_encodeProject segs ovs, ?_⟩
  intro h
  have h1 : load_project (save_project segs ovs) =
      some (segs, canonOverlays ovs) := decodeProject_encodeProject segs ovs
  rw [h1, canonOverlays_eq ovs h]

/-- C2 as stated is false: a populated timeline with one segment and one
tuple-positioned overlay does not round-trip to an equal timeline — the
position comes back as a list, and Python `==` (here: the derived equality)
distinguishes the two. -/
theorem C2_roundtrip_counterexample :
    load_project (save_project [segA] [ovTup]) ≠ some ([segA], [ovTup]) := by
  decide

/-- Witness for `C2_save_load_roundtrip` at a concrete populated timeline
with a string-positioned overlay: the hypothesis of the second conjunct is
discharged and the round-trip is exactly the identity. -/
theorem C2_witness :
    (∀ o ∈ [ovStr], canonPos o.position = o.position) ∧
    load_project (save_project [segA] [ovStr]) = some ([segA], [ovStr]) :=
  ⟨by decide, (C2_save_load_roundtrip [segA] [ovStr]).2 (by decide)⟩

/-! Section: claim C5. -/

/-- C5 (amended).  On a range state satisfying
`0 ≤ inTime ≤ outTime ≤ clipDuration` and a position in `[0, clipDuration]`:
`set_out_point` with `position < inTime` always ends with
`inTime = outTime = position`; `set_in_point` with `position > outTime` ends
with `inTime = outTime = position` *provided `outTime ≠ 0`* — when
`outTime = 0` the reconciliation guard `if self.out_time and …` is skipped
(0.0 is false-y), so `inTime = position` but `outTime` stays 0. -/
theorem C5_range_setters (s : EditorState) (pos : ℚ)
    (h0 : 0 ≤ s.in_time) (h1 : s.in_time ≤ s.out_time)
    (h2 : s.out_time ≤ s.clip_duration) (hp0 : 0 ≤ pos)
    (hp1 : pos ≤ s.clip_duration) :
    (pos < s.in_time →
      (set_out_point s pos).in_time = pos ∧
      (set_out_point s pos).out_time = pos) ∧
    (pos > s.out_time → s.out_time ≠ 0 →
      (set_in_point s pos).in_time = pos ∧
      (set_in_point s pos).out_time = pos) ∧
    (pos > s.out_time → s.out_time = 0 →
      (set_in_point s pos).in_time = pos ∧
      (set_in_point s pos).out_time = 0) := by
  refine ⟨?_, ?_, ?_⟩
  · intro hlt
    unfold set_out_point
    dsimp only
    rw [if_neg (not_lt.mpr hp1), if_pos hlt]
    exact ⟨rfl, rfl⟩
  · intro hgt hne
    unfold set_in_point
    dsimp only
    rw [if_neg (not_lt.mpr hp0), if_pos ⟨hne, hgt⟩]
    exact ⟨rfl, rfl⟩
  · intro hgt h0eq
    unfold set_in_point
    dsimp only
    rw [if_neg (not_lt.mpr hp0), if_neg (fun hc => hc.1 h0eq)]
    exact ⟨rfl, h0eq⟩

/-- C5 as stated is false: on the invariant-satisfying state `rs5`
(`clipDuration = 5`, `inTime = outTime = 0`) and position `3 ∈ [0, 5]` with
`3 > outTime`, `set_in_point` leaves `outTime = 0` instead of dragging it to
3. -/
theorem C5_setIn_counterexample :
    (0 : ℚ) ≤ rs5.in_time ∧ rs5.in_time ≤ rs5.out_time ∧
    rs5.out_time ≤ rs5.clip_duration ∧ (0 : ℚ) ≤ 3 ∧
    (3 : ℚ) ≤ rs5.clip_duration ∧ (3 : ℚ) > rs5.out_time ∧
    (set_in_point rs5 3).in_time = 3 ∧
    ¬ ((set_in_point rs5 3).out_time = 3) := by
  decide

/-- Witness for `C5_range_setters` at the concrete state `rsW`
(`clipDuration = 10`, `inTime = 2`, `outTime = 4`) and position 1: all five
hypotheses are discharged there. -/
theorem C5_witness :
    ((0 : ℚ) ≤ rsW.in_time ∧ rsW.in_time ≤ rsW.out_time ∧
      rsW.out_time ≤ rsW.clip_duration ∧ (0 : ℚ) ≤ 1 ∧
      (1 : ℚ) ≤ rsW.clip_duration) ∧
    (((1 : ℚ) < rsW.in_time →
        (set_out_point rsW 1).in_time = 1 ∧
        (set_out_point rsW 1).out_time = 1) ∧
      ((1 : ℚ) > rsW.out_time → rsW.out_time ≠ 0 →
        (set_in_point rsW 1).in_time = 1 ∧
        (set_in_point rsW 1).out_time = 1) ∧
      ((1 : ℚ) > rsW.out_time → rsW.out_time = 0 →
        (set_in_point rsW 1).in_time = 1 ∧
        (set_in_point rsW 1).out_time = 0)) :=
  ⟨⟨by decide, by decide, by decide, by decide, by decide⟩,
    C5_range_setters rsW 1 (by decide) (by decide) (by decide) (by decide)
      (by decide)⟩

/-! Section: claim C6. -/

/-- C6 (amended).  `remove_segment` with an out-of-range selection is a
*silent no-op* — the method body has no error branch at all, so the state
(timeline, selection, history stacks) is returned entirely unchanged and no
`ValidationError` is reported; on a valid index it deletes exactly that
segment and resets the selection to −1, leaving the overlays unchanged. -/
theorem C6_remove_segment (s : EditorState) :
    (¬ (0 ≤ s.current_segment_index ∧
          s.current_segment_index < (s.video_segments.length : ℤ)) →
        remove_segment s = s) ∧
    ((0 ≤ s.current_segment_index ∧
          s.current_segment_index < (s.video_segments.length : ℤ)) →
        (remove_segment s).video_segments =
          s.video_segments.eraseIdx s.current_segment_index.toNat ∧
        (remove_segment s).current_segment_index = -1 ∧
        (remove_segment s).text_overlays = s.text_overlays) := by
  constructor
  · intro h
    unfold remove_segment
    rw [if_neg h]
  · intro h
    unfold remove_segment
    rw [if_pos h]
    exact ⟨rfl, rfl, rfl⟩

/-- C6 as stated is false: in `c6bad` (one segment, stale selection 5) the
source method returns the state bit-for-bit unchanged — no `ValidationError`,
no dialog, no history push — while the behaviour the spec describes
(`removeSegmentSpec`) fails with `ValidationError`. -/
theorem C6_counterexample :
    remove_segment c6bad = c6bad ∧
    removeSegmentSpec c6bad.video_segments c6bad.current_segment_index =
      Except.error ValidationError.indexOutOfRange := by
  constructor
  · rfl
  · rfl

/-- Witness for `C6_remove_segment`: both implications discharged at concrete
states (stale selection 5 over one segment; valid selection 0). -/
theorem C6_witness :
    (¬ (0 ≤ c6bad.current_segment_index ∧
          c6bad.current_segment_index < (c6bad.video_segments.length : ℤ)) ∧
      remove_segment c6bad = c6bad) ∧
    ((0 ≤ c6ok.current_segment_index ∧
        c6ok.current_segment_index < (c6ok.video_segments.length : ℤ)) ∧
      ((remove_segment c6ok).video_segments =
          c6ok.video_segments.eraseIdx c6ok.current_segment_index.toNat ∧
        (remove_segment c6ok).current_segment_index = -1 ∧
        (remove_segment c6ok).text_overlays = c6ok.text_overlays)) :=
  ⟨⟨by decide, (C6_remove_segment c6bad).1 (by decide)⟩,
    ⟨by decide, (C6_remove_segment c6ok).2 (by decide)⟩⟩

/-! Section: claim C7. -/

/-- C7 (amended).  `restore_state` fully replaces the segment sequence and
the overlay sequence from the snapshot — it is not a merge — but it leaves
`current_segment_index` untouched (and so do `undo` and `redo`), so after a
restoration the selection may be a stale index outside the restored segment
sequence: the claimed invariant need not hold. -/
theorem C7_restore_replaces (s : EditorState) (st : Json)
    (segs : List VideoSegment) (ovs : List TextOverlay)
    (h : decodeProject st = some (segs, ovs)) :
    restore_state s st =
      { s with video_segments := segs, text_overlays := ovs } ∧
    (undo s).current_segment_index = s.current_segment_index ∧
    (redo s).current_segment_index = s.current_segment_index := by
  refine ⟨?_, ?_, ?_⟩
  · unfold restore_state
    rw [h]
  · unfold undo
    split
    next => rfl
    next top heq =>
      unfold restore_state
      split
      next => rfl
      next => rfl
  · unfold redo
    split
    next => rfl
    next top heq =>
      unfold restore_state
      split
      next => rfl
      next => rfl

/-- C7 as stated is false on a reachable run: `c7run` opens a video, adds
two segments, selects row 1 and undoes the second add.  The undo happened (a
snapshot moved to the redo stack) and restored the one-segment timeline, yet
`selectedIndex` is still 1 — neither −1 nor a valid index, violating the
claimed invariant. -/
theorem C7_counterexample :
    c7run.video_segments.length = 1 ∧
    c7run.redo_stack.length = 1 ∧
    c7run.current_segment_index = 1 ∧
    ¬ (c7run.current_segment_index = -1 ∨
        c7run.current_segment_index < (c7run.video_segments.length : ℤ)) := by
  refine ⟨by decide, by decide, by decide, by decide⟩

/-- Witness for `C7_restore_replaces` at a concrete snapshot holding one
segment and no overlays, restored into `c1pre`. -/
theorem C7_witness :
    decodeProject (encodeProject [segA] []) = some ([segA], []) ∧
    (restore_state c1pre (encodeProject [segA] []) =
        { c1pre with video_segments := [segA], text_overlays := [] } ∧
      (undo c1pre).current_segment_index = c1pre.current_segment_index ∧
      (redo c1pre).current_segment_index = c1pre.current_segment_index) :=
  ⟨by decide, C7_restore_replaces c1pre (encodeProject [segA] []) [segA] []
    (by decide)⟩

/-! Section: claims C8 and C10 — effects replacement and the export effect
dispatch. -/

theorem listModify_length (l : List VideoSegment) (i : ℕ)
    (f : VideoSegment → VideoSegment) :
    (listModify l i f).length = l.length := by
  induction l generalizing i with
  | nil => rfl
  | cons a t ih =>
      cases i with
      | zero => rfl
      | succ n => simp [listModify, ih]

theorem listModify_listModify (l : List VideoSegment) (i : ℕ)
    (f g : VideoSegment → VideoSegment) :
    listModify (listModify l i f) i g = listModify l i (fun a => g (f a)) := by
  induction l generalizing i with
  | nil => rfl
  | cons a t ih =>
      cases i with
      | zero => rfl
      | succ n => simp [listModify, ih]

theorem listModify_getElem? (l : List VideoSegment) (i : ℕ)
    (f : VideoSegment → VideoSegment) :
    (listModify l i f)[i]? = (l[i]?).map f := by
  induction l generalizing i with
  | nil => rfl
  | cons a t ih =>
      cases i with
      | zero => simp [listModify]
      | succ n => simp [listModify, ih]

theorem apply_effects_eq (s : EditorState) (c : EffectControls)
    (h : 0 ≤ s.current_segment_index ∧
      s.current_segment_index < (s.video_segments.length : ℤ)) :
    (apply_effects s c).video_segments =
      listModify s.video_segments s.current_segment_index.toNat
        (fun seg => { seg with effects := computeEffects c, speed := c.speed }) ∧
    (apply_effects s c).current_segment_index = s.current_segment_index := by
  unfold apply_effects
  rw [if_pos h]
  exact ⟨rfl, rfl⟩

/-- C8.  `apply_effects` is an idempotent full replace: with a valid
selection, applying the same controls twice leaves the segment list exactly
as one application does, and after one application the selected segment
carries exactly the computed effects list and speed — never an accumulation
of both calls. -/
theorem C8_apply_effects_idempotent (s : EditorState) (c : EffectControls)
    (h0 : 0 ≤ s.current_segment_index)
    (h1 : s.current_segment_index < (s.video_segments.length : ℤ)) :
    (apply_effects (apply_effects s c) c).video_segments =
      (apply_effects s c).video_segments ∧
    ((apply_effects s c).video_segments[s.current_segment_index.toNat]?).map
        (fun seg => seg.effects) = some (computeEffects c) ∧
    ((apply_effects s c).video_segments[s.current_segment_index.toNat]?).map
        (fun seg => seg.speed) = some c.speed := by
  obtain ⟨hseg1, hidx1⟩ := apply_effects_eq s c ⟨h0, h1⟩
  have hlen1 : (apply_effects s c).video_segments.length =
      s.video_segments.length := by
    rw [hseg1, listModify_length]
  have hcond2 : 0 ≤ (apply_effects s c).current_segment_index ∧
      (apply_effects s c).current_segment_index <
        ((apply_effects s c).video_segments.length : ℤ) := by
    rw [hidx1, hlen1]
    exact ⟨h0, h1⟩
  obtain ⟨hseg2, _⟩ := apply_effects_eq (apply_effects s c) c hcond2
  have hilen : s.current_segment_index.toNat < s.video_segments.length := by
    omega
  refine ⟨?_, ?_, ?_⟩
  · rw [hseg2, hidx1, hseg1, listModify_listModify]
  · rw [hseg1, listModify_getElem?, List.getElem?_eq_getElem hilen]
    rfl
  · rw [hseg1, listModify_getElem?, List.getElem?_eq_getElem hilen]
    rfl

/-- Witness for `C8_apply_effects_idempotent` at the concrete state `c6ok`
(one segment, selected) and controls `cW`. -/
theorem C8_witness :
    ((0 : ℤ) ≤ c6ok.current_segment_index ∧
      c6ok.current_segment_index < (c6ok.video_segments.length : ℤ)) ∧
    ((apply_effects (apply_effects c6ok cW) cW).video_segments =
        (apply_effects c6ok cW).video_segments ∧
      ((apply_effects c6ok cW).video_segments[c6ok.current_segment_index.toNat]?).map
          (fun seg => seg.effects) = some (computeEffects cW) ∧
      ((apply_effects c6ok cW).video_segments[c6ok.current_segment_index.toNat]?).map
          (fun seg => seg.speed) = some cW.speed) :=
  ⟨⟨by decide, by decide⟩,
    C8_apply_effects_idempotent c6ok cW (by decide) (by decide)⟩

theorem applyEffectToClip_skip (clip : List EngineOp) (e : EffectEntry)
    (h : e.type = "contrast" ∨ e.type = "blur") :
    applyEffectToClip clip e = clip := by
  rcases h with h | h <;> simp [applyEffectToClip, h]

/-- C10.  The export dispatch passes the clip through unchanged on every
`contrast` (and `blur`) entry; consequently folding a segment's effects over
a clip equals folding the list with all contrast/blur entries filtered out;
and yet `apply_effects` with a contrast slider value ≠ 1 does record a
contrast entry on the selected segment — so a contrast effect never
influences the rendered output. -/
theorem C10_contrast_blur_skipped :
    (∀ (clip : List EngineOp) (e : EffectEntry),
        e.type = "contrast" ∨ e.type = "blur" →
        applyEffectToClip clip e = clip) ∧
    (∀ (effects : List EffectEntry) (clip : List EngineOp),
        effects.foldl applyEffectToClip clip =
          (effects.filter
            (fun e => !(e.type == "contrast" || e.type == "blur"))).foldl
            applyEffectToClip clip) ∧
    (∀ (s : EditorState) (c : EffectControls),
        0 ≤ s.current_segment_index →
        s.current_segment_index < (s.video_segments.length : ℤ) →
        c.contrast ≠ 1 →
        ∃ seg,
          (apply_effects s c).video_segments[s.current_segment_index.toNat]? =
            some seg ∧
          EffectEntry.mk "contrast" (some c.contrast) ∈ seg.effects) := by
  refine ⟨applyEffectToClip_skip, ?_, ?_⟩
  · intro effects
    induction effects with
    | nil => intro clip; rfl
    | cons e t ih =>
        intro clip
        rw [List.foldl_cons, List.filter_cons]
        by_cases hc : e.type = "contrast" ∨ e.type = "blur"
        · rw [applyEffectToClip_skip clip e hc]
          have hb : (!(e.type == "contrast" || e.type == "blur")) = false := by
            rcases hc with h | h <;> simp [h]
          rw [hb]
          simp only [Bool.false_eq_true, if_false]
          exact ih clip
        · have hb : (!(e.type == "contrast" || e.type == "blur")) = true := by
            push_neg at hc
            simp [hc.1, hc.2]
          rw [hb]
          simp only [if_true]
          rw [List.foldl_cons]
          exact ih (applyEffectToClip clip e)
  · intro s c h0 h1 hc
    obtain ⟨hseg1, _⟩ := apply_effects_eq s c ⟨h0, h1⟩
    have hilen : s.current_segment_index.toNat < s.video_segments.length := by
      omega
    refine ⟨{ s.video_segments[s.current_segment_index.toNat] with
        effects := computeEffects c, speed := c.speed }, ?_, ?_⟩
    · rw [hseg1, listModify_getElem?, List.getElem?_eq_getElem hilen]
      rfl
    · show EffectEntry.mk "contrast" (some c.contrast) ∈ computeEffects c
      unfold computeEffects
      rw [if_pos hc]
      simp

/-- Witness for `C10_contrast_blur_skipped`: each universally quantified
part applied at a concrete input with its hypotheses discharged. -/
theorem C10_witness :
    applyEffectToClip [] ⟨"contrast", some (7/5)⟩ = [] ∧
    ([⟨"contrast", some (7/5)⟩, ⟨"blackwhite", none⟩] :
        List EffectEntry).foldl applyEffectToClip [] =
      (([⟨"contrast", some (7/5)⟩, ⟨"blackwhite", none⟩] :
        List EffectEntry).filter
          (fun e => !(e.type == "contrast" || e.type == "blur"))).foldl
        applyEffectToClip [] ∧
    (∃ seg,
      (apply_effects c6ok cW).video_segments[c6ok.current_segment_index.toNat]? =
        some seg ∧
      EffectEntry.mk "contrast" (some cW.contrast) ∈ seg.effects) :=
  ⟨C10_contrast_blur_skipped.1 [] ⟨"contrast", some (7/5)⟩ (Or.inl rfl),
    C10_contrast_blur_skipped.2.1 [⟨"contrast", some (7/5)⟩, ⟨"blackwhite", none⟩] [],
    C10_contrast_blur_skipped.2.2 c6ok cW (by decide) (by decide)
      (by norm_num [cW])⟩

/-! Section: claim C9. -/

theorem foldl_duration_sum (l : List VideoSegment) (a : ℚ) :
    l.foldl (fun acc seg => acc + seg.duration / seg.speed) a =
      a + (l.map (fun seg => seg.duration / seg.speed)).sum := by
  induction l generalizing a with
  | nil => simp
  | cons x t ih => simp [ih, add_assoc]

/-- C9.  For every timeline whose segments satisfy the data-model invariant
`duration = endTime - startTime`, the total duration surfaced by
`update_timeline_display` equals the sum over the segments of
`(endTime - startTime) / speed`; in particular the two-segment scenario
`segsC9` reports 6.5. -/
theorem C9_total_duration :
    (∀ segs : List VideoSegment,
      (∀ seg ∈ segs, seg.duration = seg.end_time - seg.start_time) →
      timelineTotalDuration segs =
        (segs.map (fun seg => (seg.end_time - seg.start_time) / seg.speed)).sum) ∧
    timelineTotalDuration segsC9 = 13 / 2 := by
  constructor
  · intro segs h
    unfold timelineTotalDuration
    rw [foldl_duration_sum, zero_add]
    exact congrArg List.sum
      (List.map_congr_left (fun seg hseg => by rw [h seg hseg]))
  · norm_num [timelineTotalDuration, segsC9]

/-- Witness for `C9_total_duration` at the concrete scenario `segsC9`,
discharging the duration-consistency hypothesis there. -/
theorem C9_witness :
    (∀ seg ∈ segsC9, seg.duration = seg.end_time - seg.start_time) ∧
    timelineTotalDuration segsC9 =
      (segsC9.map (fun seg => (seg.end_time - seg.start_time) / seg.speed)).sum :=
  ⟨by norm_num [segsC9], C9_total_duration.1 segsC9 (by norm_num [segsC9])⟩

/-! Section: claim C4. -/

/-- C4 evaluated at its failing input.  `export_video` from `c4s0` stores in
the thread object a *reference* to the live segment list (`c4job`), not a
copy: at start the job would read `[segA]`, but after the mutation
`remove_segment` (deleting the selected segment) the very same reference
reads `[]` — the mutation is observable to the in-flight job, contradicting
the claimed snapshot isolation. -/
theorem C4_export_aliasing :
    c4s1.export_thread = some c4job ∧
    derefSegments c4s1 c4job.segments = [segA] ∧
    derefSegments (remove_segment c4s1) c4job.segments = [] ∧
    derefSegments (remove_segment c4s1) c4job.segments ≠
      derefSegments c4s1 c4job.segments := by
  refine ⟨rfl, rfl, by decide, by decide⟩

end LamoEditor
